import Mathlib

/-!
# Verification of the transcriptionist core

Shallow embedding of the `transcriptionist` Python package
(`constants.py`, `matrices.py`, `levenshtein.py`, `schemata.py`)
together with theorems settling the specification claims about it.

Conventions used throughout:
* Python `None` results / raised exceptions are modelled with `Option`
  (`none` = the call raised, `some x` = the call returned `x`).
* Numeric costs and scores are modelled with `Int` (the test-suite and the
  defaults use integers; nothing in the verified claims depends on floats).
* Python sequences are modelled with `List`.
-/

/-! ## constants.py -/

/-- Model of the `EditOperation` flags (constants.py, lines 9-24).  The engine only ever
produces the five base flags, never OR-combinations, so a plain inductive
type is a faithful model of the values that actually occur. -/
inductive EdOp where
  | NONE
  | INSERT
  | DELETE
  | SUBSTITUTE
  | TRANSPOSE
deriving DecidableEq, Repr

/-- Model of the `Direction` bitmask (constants.py, lines 39-83): one flag bit per
cardinal direction; diagonals are OR-combinations of two bits. -/
structure Direction where
  north : Bool
  east : Bool
  south : Bool
  west : Bool
deriving DecidableEq, Repr

/-- Flag `Direction.NONE`: the absence of any direction (all bits clear). -/
def Direction.NONE : Direction := ⟨false, false, false, false⟩

/-- Flag `Direction.NORTH`. -/
def Direction.NORTH : Direction := ⟨true, false, false, false⟩

/-- Flag `Direction.EAST`. -/
def Direction.EAST : Direction := ⟨false, true, false, false⟩

/-- Flag `Direction.SOUTH`. -/
def Direction.SOUTH : Direction := ⟨false, false, true, false⟩

/-- Flag `Direction.WEST`. -/
def Direction.WEST : Direction := ⟨false, false, false, true⟩

/-- Bitwise OR of two direction flags (Python `|=` on `Direction`). -/
def Direction.or (a b : Direction) : Direction :=
  ⟨a.north || b.north, a.east || b.east, a.south || b.south, a.west || b.west⟩

/-- Model of `MatrixPointer.directionto` (matrices.py, lines 1293-1316): compares only
the sign of the coordinate differences, starting from `NONE` and OR-ing in
`WEST`/`EAST` from the column comparison and `NORTH`/`SOUTH` from the row
comparison. -/
def directionTo (selfPos otherPos : Nat × Nat) : Direction :=
  let d := Direction.NONE
  let d := if otherPos.2 < selfPos.2 then d.or Direction.WEST
    else if selfPos.2 < otherPos.2 then d.or Direction.EAST
    else d
  if otherPos.1 < selfPos.1 then d.or Direction.NORTH
  else if selfPos.1 < otherPos.1 then d.or Direction.SOUTH
  else d

/-! ## levenshtein.py: the per-cell calculation -/

/-- The triple assigned by `Levenshtein.matrix_assign` (levenshtein.py,
lines 105-118): the numeric distance written to the distance matrix, the
backlink coordinates written to the pointer matrix, and the edit operation
written to the edit matrix. -/
structure CellResult where
  dvalue : Int
  pvalue : Nat × Nat
  evalue : EdOp
deriving DecidableEq, Repr

/-- Interior-cell part of `Levenshtein.calculate` (levenshtein.py, lines
159-196), for the current cell `(r, c)` with `r ≥ 1` and `c ≥ 1`.
`isMatch` is the result of the label comparison on line 164 (source symbol
`r-1` equals target symbol `c-1`); `vup`, `vleft`, `vupleft` are the
already-computed distance-matrix values of the three neighbouring cells.
`none` models the `raise ValueError` on line 195: no value is assigned to
any of the three matrices in that case. -/
def calcInterior (ic dc sc : Int) (isMatch : Bool) (r c : Nat)
    (vup vleft vupleft : Int) : Option CellResult :=
  let substituteCost := if isMatch then 0 else sc
  let substituteEdop := if isMatch then EdOp.NONE else EdOp.SUBSTITUTE
  let insertion := vleft + ic
  let deletion := vup + dc
  let substitution := vupleft + substituteCost
  if insertion < deletion ∧ insertion < substitution then
    some ⟨insertion, (r, c - 1), EdOp.INSERT⟩
  else if deletion < insertion ∧ deletion < substitution then
    some ⟨deletion, (r - 1, c), EdOp.DELETE⟩
  else if substitution ≤ insertion ∧ substitution ≤ deletion then
    some ⟨substitution, (r - 1, c - 1), substituteEdop⟩
  else
    none

/-- The label list built by `Levenshtein.initialise_matrix` (levenshtein.py,
lines 84-85): `[''] + list(seq)`.  The leading empty-string sentinel is
modelled by `none`; it is only ever read for row/column 0, which the match
check never reaches. -/
def labelList {α : Type} (seq : List α) : List (Option α) :=
  none :: seq.map some

/-- The symbol-match check of `Levenshtein.calculate` (levenshtein.py, line
164): `row_labels[r] == col_labels[c]`, i.e. `source[r-1] == target[c-1]`
for interior cells. -/
def matchLabels {α : Type} [DecidableEq α] (src tgt : List α) (r c : Nat) : Bool :=
  decide ((labelList src).get? r = (labelList tgt).get? c)

/-- Distance-matrix value of cell `(r, c)` after `Levenshtein.compute` has
filled the matrix in row-major order (levenshtein.py, lines 137-196 and
219-224).  Each cell only depends on the cells above, left and upper-left of
it, which the row-major order has already filled, so the recurrence below
computes exactly the stored values.  `none` propagates the `ValueError` of
the interior case: once `calculate` raises, `compute` aborts and no
distance is produced. -/
def dval {α : Type} [DecidableEq α] (ic dc sc : Int) (src tgt : List α) :
    Nat → Nat → Option Int
  | 0, 0 => some 0
  | 0, c + 1 => (dval ic dc sc src tgt 0 c).map (· + ic)
  | r + 1, 0 => (dval ic dc sc src tgt r 0).map (· + dc)
  | r + 1, c + 1 =>
    match dval ic dc sc src tgt r (c + 1), dval ic dc sc src tgt (r + 1) c,
        dval ic dc sc src tgt r c with
    | some vup, some vleft, some vupleft =>
      (calcInterior ic dc sc (matchLabels src tgt (r + 1) (c + 1)) (r + 1) (c + 1)
        vup vleft vupleft).map (·.dvalue)
    | _, _, _ => none
termination_by r c => (r, c)

/-- Model of `levdist` (levenshtein.py, lines 487-497): build the engine, run
`compute`, read `distance = dmatrix[n_rows - 1, n_cols - 1]`.  `none` models
the `ValueError` escaping `compute`. -/
def levdist {α : Type} [DecidableEq α] (ic dc sc : Int) (src tgt : List α) :
    Option Int :=
  dval ic dc sc src tgt src.length tgt.length

/-! ## matrices.py: Matrix -/

/-- Model of `Matrix` (matrices.py, lines 22-848): a 2-D container with `n_rows × n_cols`
cells stored row-major in `data`, a default fill value, optional row/column
labels and a presentation cell width.  (Named `PyMatrix` here only because
Mathlib already exports a `Matrix`.)  The constructor guarantees
`n_rows ≥ 1`, `n_cols ≥ 1` and that `data` has exactly the declared shape;
`WF` below records that invariant. -/
structure PyMatrix (α : Type) where
  n_rows : Nat
  n_cols : Nat
  data : List (List α)
  default_value : α
  row_labels : Option (List String) := none
  col_labels : Option (List String) := none
  cell_width : Nat := 0
deriving DecidableEq, Repr

/-- Shape invariant established by `PyMatrix.__init__` (matrices.py, lines
40-85) and preserved by every mutator. -/
def PyMatrix.WF {α : Type} (m : PyMatrix α) : Prop :=
  1 ≤ m.n_rows ∧ 1 ≤ m.n_cols ∧ m.data.length = m.n_rows ∧
    ∀ row ∈ m.data, row.length = m.n_cols

/-- Model of `Matrix.__wrap_row` (matrices.py, lines 314-318): a negative row index is
wrapped once by adding `n_rows`; non-negative indices pass through. -/
def PyMatrix.wrapRow {α : Type} (m : PyMatrix α) (row : Int) : Int :=
  if row < 0 then m.n_rows + row else row

/-- Model of `Matrix.__wrap_col` (matrices.py, lines 320-324). -/
def PyMatrix.wrapCol {α : Type} (m : PyMatrix α) (col : Int) : Int :=
  if col < 0 then m.n_cols + col else col

/-- Model of `Matrix.__validate_row_index` (matrices.py, lines 326-336):
`row in range(0, n_rows)`. -/
def PyMatrix.validRow {α : Type} (m : PyMatrix α) (row : Int) : Bool :=
  decide (0 ≤ row ∧ row < (m.n_rows : Int))

/-- Model of `Matrix.__validate_col_index` (matrices.py, lines 338-348). -/
def PyMatrix.validCol {α : Type} (m : PyMatrix α) (col : Int) : Bool :=
  decide (0 ≤ col ∧ col < (m.n_cols : Int))

/-- Model of `Matrix.getitem` (matrices.py, lines 350-371): wrap each index once,
validate, and read `data[row][col]`.  `none` models the raised `IndexError`
when an index is still out of range after wrap-around. -/
def PyMatrix.getitem {α : Type} (m : PyMatrix α) (row col : Int) : Option α :=
  let row := m.wrapRow row
  if m.validRow row then
    let col := m.wrapCol col
    if m.validCol col then
      (m.data.get? row.toNat).bind (·.get? col.toNat)
    else none
  else none

/-- Model of `Matrix.setitem` (matrices.py, lines 386-405): wrap each index once,
validate, and overwrite `data[row][col]`.  `none` models the raised
`IndexError`. -/
def PyMatrix.setitem {α : Type} (m : PyMatrix α) (row col : Int) (value : α) :
    Option (PyMatrix α) :=
  let row := m.wrapRow row
  if m.validRow row then
    let col := m.wrapCol col
    if m.validCol col then
      some { m with
        data := m.data.modify (fun r => r.set col.toNat value) row.toNat }
    else none
  else none

/-- The row loop of the sequence branch of `Matrix.__eq__` (matrices.py,
lines 779-782): `for r in range(0, self.n_rows): if self.rows[r] !=
list(other[r]): return False; return True` — with the `return True`
indented into the loop body, so the function returns during the first
iteration.  When the loop runs zero iterations (possible only for
`n_rows = 0`) control falls through to `return NotImplemented`, which
Python resolves to an identity comparison, i.e. `false` for distinct
objects. -/
def PyMatrix.eqSeqLoop {α : Type} [DecidableEq α] (m : PyMatrix α)
    (other : List (List α)) (r : Nat) : Bool :=
  if r < m.n_rows then
    if m.data.getD r [] ≠ other.getD r [] then false
    else true
  else false

/-- The sequence branch of `Matrix.__eq__` (matrices.py, lines 778-784),
comparing a matrix against a nested list: guarded by
`len(other) == self.n_rows`, then the early-returning row loop above. -/
def PyMatrix.eqSeq {α : Type} [DecidableEq α] (m : PyMatrix α)
    (other : List (List α)) : Bool :=
  if other.length = m.n_rows then
    m.eqSeqLoop other 0
  else
    false

/-! ## matrices.py: MatrixPointer -/

/-- Model of `MatrixPointer` (matrices.py, lines 851-951): a coordinate pair bound to
one matrix.  Only the bound matrix's dimensions are relevant to the
coordinate setters, so they are inlined here.  The coordinates are `Int`
because the setters, as written, accept negative values (see the C5
theorems below). -/
structure MatrixPointer where
  n_rows : Nat
  n_cols : Nat
  r : Int
  c : Int
deriving DecidableEq, Repr

/-- The `r` setter of `MatrixPointer` (matrices.py, lines 921-930): raises
`ValueError` (modelled `none`) when `r >= n_rows`; otherwise stores `int(r)`.
There is no lower-bound check. -/
def MatrixPointer.setR (p : MatrixPointer) (r : Int) : Option MatrixPointer :=
  if r ≥ (p.n_rows : Int) then none
  else some { p with r := r }

/-- The `c` setter of `MatrixPointer` (matrices.py, lines 942-951). -/
def MatrixPointer.setC (p : MatrixPointer) (c : Int) : Option MatrixPointer :=
  if c ≥ (p.n_cols : Int) then none
  else some { p with c := c }

/-! ## levenshtein.py: the object state and its read-only views -/

/-- The state of a `Levenshtein` object (levenshtein.py, lines 26-74).
`dmatrix` holds the numeric distances (its default fill `0` is itself an
`Int`).  The pointer and edit matrices are initialised with the integer
default `0`, which is neither a `MatrixPointer` nor an `EditOperation`;
an untouched cell is therefore modelled as `none`. -/
structure LevState (α : Type) where
  source : List α
  target : List α
  insert_cost : Int
  delete_cost : Int
  substitute_cost : Int
  computed : Bool
  dmatrix : PyMatrix Int
  pmatrix : PyMatrix (Option (Nat × Nat))
  ematrix : PyMatrix (Option EdOp)

/-- The backlink walk shared by the four reconstruction properties
(levenshtein.py, lines 330-340, 355-365, 381-392, 407-418):
`cur = end; while True: acc.insert(0, push(cur)); cur = pmatrix[cur];
if cur == start: break`.  `push` is what the property reads at each cell.
Stepping fails (`none`) when the pointer-matrix cell still holds its
integer default instead of a `MatrixPointer` (subscripting `cur` then
raises).  The fuel argument makes the unguarded `while True` total: the
callers pass one unit per matrix cell, and running out of fuel models the
loop spinning on a pointer cycle and never reaching `(0, 0)`. -/
def levWalk {α β : Type} (L : LevState α) (push : Nat × Nat → Option β) :
    Nat → Nat × Nat → List β → Option (List β)
  | 0, _, _ => none
  | fuel + 1, cur, acc => do
    let v ← push cur
    let next ← (L.pmatrix.getitem cur.1 cur.2).bind id
    if next = (0, 0) then some (v :: acc)
    else levWalk L push fuel next (v :: acc)

/-- The cell the reconstruction walks start from:
`MatrixPointer(dmatrix, n_rows - 1, n_cols - 1)`. -/
def LevState.endPos {α : Type} (L : LevState α) : Nat × Nat :=
  (L.dmatrix.n_rows - 1, L.dmatrix.n_cols - 1)

/-- Walk fuel: one unit per matrix cell (an acyclic backlink path can visit
each cell at most once). -/
def LevState.walkFuel {α : Type} (L : LevState α) : Nat :=
  L.dmatrix.n_rows * L.dmatrix.n_cols

/-- Model of `Levenshtein.distance` (levenshtein.py, lines 310-316): the value of
`dmatrix[n_rows - 1, n_cols - 1]` once `computed` is set, `None` before. -/
def LevState.distance {α : Type} (L : LevState α) : Option Int :=
  if L.computed then
    L.dmatrix.getitem ((L.dmatrix.n_rows : Int) - 1) ((L.dmatrix.n_cols : Int) - 1)
  else none

/-- Model of `Levenshtein.esequence` (levenshtein.py, lines 318-341): `None` unless
`computed`; otherwise the backlink walk collecting `ematrix[cur]` (an inner
`none` is a cell still holding the integer default, which the Python list
would contain verbatim). -/
def LevState.esequence {α : Type} (L : LevState α) : Option (List (Option EdOp)) :=
  if L.computed then
    levWalk L (fun cur => L.ematrix.getitem cur.1 cur.2) L.walkFuel L.endPos []
  else none

/-- Model of `Levenshtein.dsequence` (levenshtein.py, lines 343-366): `None` unless
`computed`; otherwise the backlink walk collecting `dmatrix[cur]`. -/
def LevState.dsequence {α : Type} (L : LevState α) : Option (List Int) :=
  if L.computed then
    levWalk L (fun cur => L.dmatrix.getitem cur.1 cur.2) L.walkFuel L.endPos []
  else none

/-- Model of `Levenshtein.psequence` (levenshtein.py, lines 368-392): `None` unless
`computed`; otherwise the backlink walk collecting `pmatrix[cur].copy()`
(which raises when the cell is not a pointer). -/
def LevState.psequence {α : Type} (L : LevState α) : Option (List (Nat × Nat)) :=
  if L.computed then
    levWalk L (fun cur => (L.pmatrix.getitem cur.1 cur.2).bind id)
      L.walkFuel L.endPos []
  else none

/-- Model of `Levenshtein.dirsequence` (levenshtein.py, lines 394-418): `None` unless
`computed`; otherwise the backlink walk collecting
`cur.directionto(pmatrix[cur])`. -/
def LevState.dirsequence {α : Type} (L : LevState α) : Option (List Direction) :=
  if L.computed then
    levWalk L
      (fun cur => ((L.pmatrix.getitem cur.1 cur.2).bind id).map (directionTo cur))
      L.walkFuel L.endPos []
  else none

/-! ## schemata.py -/

/-- Model of `TargetSegment` (schemata.py, lines 15-114): a target (possibly `None`,
modelled `none`) plus a numeric score. -/
structure TargetSegment (τ : Type) where
  target : Option τ
  score : Int
deriving DecidableEq, Repr

/-- Model of `TargetSequence` (schemata.py, lines 332-401): an ordered tuple of
targets plus a summed score.  Equality and hashing use exactly
`(sequence, score)`; the derived `flat` string is a cached projection and
carries no extra information, so it is omitted from the state. -/
structure TargetSequence (τ : Type) where
  sequence : List (Option τ)
  score : Int
deriving DecidableEq, Repr

/-- Loop body of `TargetSequence.from_segments` (schemata.py, lines 345-355):
walk the input, reject (TypeError, modelled `none`) any item that is not a
`TargetSegment`, append its target and accumulate its score. -/
def fromSegmentsAux {τ : Type} (clean : List (Option τ)) (score : Int) :
    List (Option (TargetSegment τ)) → Option (TargetSequence τ)
  | [] => some ⟨clean, score⟩
  | none :: _ => none
  | some seg :: rest => fromSegmentsAux (clean ++ [seg.target]) (score + seg.score) rest

/-- Model of `TargetSequence.from_segments` (schemata.py, lines 345-355). -/
def fromSegments {τ : Type} (segs : List (Option (TargetSegment τ))) :
    Option (TargetSequence τ) :=
  fromSegmentsAux [] 0 segs

/-- Model of `set.add` on the compilation set (schemata.py, lines 298, 301, 315):
by-value deduplicated insertion, modelled on a duplicate-free list. -/
def setInsert {τ : Type} [DecidableEq τ] (comp : List (TargetSequence τ))
    (x : TargetSequence τ) : List (TargetSequence τ) :=
  if x ∈ comp then comp else comp ++ [x]

/-- Model of `set.update` (schemata.py, line 322): insert every element of the
sub-compilation. -/
def setUnion {τ : Type} [DecidableEq τ] (comp sub : List (TargetSequence τ)) :
    List (TargetSequence τ) :=
  sub.foldl setInsert comp

/-- One column of the overlay loop of `TargetSchema.__compile` (schemata.py,
lines 305-312): the fresh cell starts as the default `TargetSegment()`
(target `None`, score 0); the alternant cell wins when its target is
non-`None`, else the working-base cell when its target is non-`None`,
else the default remains.  Accessing `.target` of a cell that is the bare
absence marker `None` raises (AttributeError), modelled by the outer
`none`. -/
def overlayCell {τ : Type} (aj bj : Option (TargetSegment τ)) :
    Option (TargetSegment τ) :=
  match aj with
  | none => none
  | some a =>
    if a.target.isSome then some ⟨a.target, a.score⟩
    else
      match bj with
      | none => none
      | some b =>
        if b.target.isSome then some ⟨b.target, b.score⟩
        else some ⟨none, 0⟩

/-- The `for j in range(0, len(base))` overlay loop of
`TargetSchema.__compile` (schemata.py, lines 305-312), walking base and
alternant columns in parallel; an alternant row shorter than the base makes
`alts[i][j]` raise IndexError (`none`). -/
def overlayForm {τ : Type} :
    List (Option (TargetSegment τ)) → List (Option (TargetSegment τ)) →
      Option (List (Option (TargetSegment τ)))
  | [], _ => some []
  | _ :: _, [] => none
  | bj :: brest, aj :: arest => do
    let cell ← overlayCell aj bj
    let rest ← overlayForm brest arest
    pure (some cell :: rest)

mutual

/-- Model of `TargetSchema.__compile` (schemata.py, lines 294-323): start the result
set with the sequence of the working base, then run the alternant loop. -/
def tsCompile {τ : Type} [DecidableEq τ] (base : List (Option (TargetSegment τ)))
    (alts : List (List (Option (TargetSegment τ)))) :
    Option (List (TargetSequence τ)) := do
  let first ← fromSegments base
  tsLoop base [] alts (setInsert [] first)
termination_by (alts.length, alts.length + 2)
decreasing_by
  all_goals simp [Prod.lex_def, List.length_append]

/-- The `for i in range(0, len(alts))` loop of `TargetSchema.__compile`
(schemata.py, lines 302-322).  `restAlts` is the part of `alts` not yet
iterated; `prevAlts` the part already iterated, so that
`prevAlts ++ rest` is exactly `new_alts = alts.copy(); new_alts.pop(i)`.
The recursion into `__compile` happens only when `new_alts` is non-empty,
with the merged form as the new working base. -/
def tsLoop {τ : Type} [DecidableEq τ] (base : List (Option (TargetSegment τ)))
    (prevAlts restAlts : List (List (Option (TargetSegment τ))))
    (comp : List (TargetSequence τ)) : Option (List (TargetSequence τ)) :=
  match restAlts with
  | [] => some comp
  | alt :: rest => do
    let form ← overlayForm base alt
    let fseq ← fromSegments form
    let comp1 := setInsert comp fseq
    let newAlts := prevAlts ++ rest
    let comp2 ← if 0 < newAlts.length then do
        let sub ← tsCompile form newAlts
        pure (setUnion comp1 sub)
      else pure comp1
    tsLoop base (prevAlts ++ [alt]) rest comp2
termination_by (prevAlts.length + restAlts.length, restAlts.length + 1)
decreasing_by
  all_goals simp [Prod.lex_def, List.length_append]
  all_goals omega

end

/-- Model of `TargetSchema.compile` (schemata.py, lines 325-329) on a schema given as
its list of rows: `__compile(self.getbase(), self.getalternants())`, where
`getbase()` is row 0 and `getalternants()` the remaining rows. -/
def compileSchema {τ : Type} [DecidableEq τ]
    (rows : List (List (Option (TargetSegment τ)))) :
    Option (List (TargetSequence τ)) :=
  tsCompile (rows.headD []) (rows.drop 1)

/-- The value assigned into a schema cell, as seen by
`TargetSchema.setitem`: a `TargetSegment` instance, the absence marker
`None`, or a value of any other type. -/
inductive SchemaValue (τ : Type) where
  | seg (s : TargetSegment τ)
  | absent
  | other
deriving DecidableEq, Repr

/-- Model of `TargetSchema.setitem` (schemata.py, lines 189-213).  The guard on line
206 is `isinstance(value, (TargetSegment, None))`: CPython checks the tuple
items left to right and short-circuits on the first match, so a
`TargetSegment` value passes and is stored; for every other value —
including the absence marker `None` itself — the check reaches the second
tuple item `None`, which is not a type, and `isinstance` raises
`TypeError` (modelled `none`). -/
def schemaSetitem {τ : Type} (m : PyMatrix (Option (TargetSegment τ)))
    (row col : Int) (v : SchemaValue τ) :
    Option (PyMatrix (Option (TargetSegment τ))) :=
  match v with
  | .seg s => m.setitem row col (some s)
  | .absent => none
  | .other => none

/-! ## Claim theorems -/

/-- C2: for every interior cell where the insertion candidate equals the
deletion candidate and both are strictly less than the substitution
candidate, `Levenshtein.calculate` raises `ValueError` (modelled `none`),
and no value is assigned to the distance, pointer, or edit matrix at that
cell. -/
theorem claim_C2 (ic dc sc : Int) (isMatch : Bool) (r c : Nat)
    (vup vleft vupleft : Int)
    (heq : vleft + ic = vup + dc)
    (hlt : vleft + ic < vupleft + (if isMatch then 0 else sc)) :
    calcInterior ic dc sc isMatch r c vup vleft vupleft = none := by
  cases isMatch <;>
    simp only [Bool.false_eq_true, if_false, if_true] at hlt <;>
    simp only [calcInterior, Bool.false_eq_true, if_false, if_true] <;>
    split_ifs with h1 h2 h3 <;> first | rfl | (exfalso; omega)

/-- Witness for C2 at the concrete interior cell arising from
`levdist("a", "b")` with costs insert 1, delete 1, substitute 3: both
candidates are 2, the substitution candidate is 3, and the cell
computation errors out. -/
theorem claim_C2_witness :
    (1 : Int) + 1 = 1 + 1 ∧
    ((1 : Int) + 1 < 0 + (if false then 0 else 3)) ∧
    calcInterior 1 1 3 false 1 1 1 1 0 = none :=
  ⟨rfl, by decide, claim_C2 1 1 3 false 1 1 1 1 0 rfl (by decide)⟩

/-- C1: for every interior cell (`r ≥ 1`, `c ≥ 1`) processed by
`Levenshtein.calculate`, if the substitution candidate
(`cost(r-1,c-1)` plus 0 on a symbol match, else the substitute cost) is
less than or equal to both the insertion and the deletion candidate, the
cell is assigned the substitution candidate with backlink `(r-1, c-1)` and
tag `SUBSTITUTE` (`NONE` on a symbol match); the insertion candidate is
chosen only when strictly less than both deletion and substitution, and
the deletion candidate only when strictly less than both insertion and
substitution. -/
theorem claim_C1 (ic dc sc : Int) (isMatch : Bool) (r c : Nat)
    (_hr : 1 ≤ r) (_hc : 1 ≤ c) (vup vleft vupleft : Int) :
    (vupleft + (if isMatch then 0 else sc) ≤ vleft + ic →
      vupleft + (if isMatch then 0 else sc) ≤ vup + dc →
      calcInterior ic dc sc isMatch r c vup vleft vupleft =
        some ⟨vupleft + (if isMatch then 0 else sc), (r - 1, c - 1),
          if isMatch then EdOp.NONE else EdOp.SUBSTITUTE⟩) ∧
    (∀ res, calcInterior ic dc sc isMatch r c vup vleft vupleft = some res →
      res.evalue = EdOp.INSERT →
      res = ⟨vleft + ic, (r, c - 1), EdOp.INSERT⟩ ∧
        vleft + ic < vup + dc ∧
        vleft + ic < vupleft + (if isMatch then 0 else sc)) ∧
    (∀ res, calcInterior ic dc sc isMatch r c vup vleft vupleft = some res →
      res.evalue = EdOp.DELETE →
      res = ⟨vup + dc, (r - 1, c), EdOp.DELETE⟩ ∧
        vup + dc < vleft + ic ∧
        vup + dc < vupleft + (if isMatch then 0 else sc)) := by
  cases isMatch <;>
    simp only [calcInterior, Bool.false_eq_true, if_false, if_true] <;>
    split_ifs with h1 h2 h3 <;>
    refine ⟨fun hs1 hs2 => ?_, fun res hres he => ?_, fun res hres he => ?_⟩ <;>
    first
      | rfl
      | (exfalso; omega)
      | exact Option.noConfusion hres
      | exact hres.elim
      | (injection hres with h; subst h;
          first
            | exact ⟨rfl, h1.1, h1.2⟩
            | exact ⟨rfl, h2.1, h2.2⟩
            | exact EdOp.noConfusion he)

/-- Witness for C1 at a concrete interior cell (unit costs, mismatch,
all three neighbour values 0): the substitution candidate ties with both
alternatives and is selected with backlink `(0, 0)` and tag
`SUBSTITUTE`. -/
theorem claim_C1_witness :
    (1 : Nat) ≤ 1 ∧
    calcInterior 1 1 1 false 1 1 0 0 0 =
      some ⟨0 + (if false then 0 else 1), (0, 0),
        if false then EdOp.NONE else EdOp.SUBSTITUTE⟩ :=
  ⟨le_refl 1,
    (claim_C1 1 1 1 false 1 1 (by decide) (by decide) 0 0 0).1
      (by decide) (by decide)⟩

/-- First row of the distance matrix: cell `(0, c)` holds `c * insert_cost`
(levenshtein.py, lines 145-151). -/
lemma dval_first_row {α : Type} [DecidableEq α] (ic dc sc : Int)
    (src tgt : List α) (c : Nat) :
    dval ic dc sc src tgt 0 c = some (c * ic) := by
  induction c with
  | zero => simp [dval]
  | succ n ih =>
    simp only [dval, ih, Option.map_some']
    congr 1
    push_cast
    ring

/-- First column of the distance matrix: cell `(r, 0)` holds
`r * delete_cost` (levenshtein.py, lines 152-158). -/
lemma dval_first_col {α : Type} [DecidableEq α] (ic dc sc : Int)
    (src tgt : List α) (r : Nat) :
    dval ic dc sc src tgt r 0 = some (r * dc) := by
  induction r with
  | zero => simp [dval]
  | succ n ih =>
    simp only [dval, ih, Option.map_some']
    congr 1
    push_cast
    ring

/-- C3: for every pair of sequences where the source and/or the target is
empty, constructing the engine and computing succeeds (no error), and the
computed distance is the length of the non-empty sequence times the
relevant cost: `levdist([], t) = len(t) * insert_cost`,
`levdist(s, []) = len(s) * delete_cost`, `levdist([], []) = 0`. -/
theorem claim_C3 {α : Type} [DecidableEq α] (ic dc sc : Int) (s t : List α) :
    levdist ic dc sc ([] : List α) t = some (t.length * ic) ∧
    levdist ic dc sc s ([] : List α) = some (s.length * dc) ∧
    levdist ic dc sc ([] : List α) ([] : List α) = some 0 := by
  refine ⟨?_, ?_, ?_⟩ <;>
    simp [levdist, dval_first_row, dval_first_col]

/-- C4: for every grid with `R` rows and `C` columns, element access wraps a
negative index modulo the respective dimension: `get(-1,-1)` equals
`get(R-1, C-1)`, and in general a negative row index `r` with `R + r` in
range maps to the cell at `R + r` (likewise for columns); an index that is
still out of range after wrap-around is rejected with a range error
(`none`). -/
theorem claim_C4 {α : Type} (m : PyMatrix α)
    (hR : 1 ≤ m.n_rows) (hC : 1 ≤ m.n_cols) :
    (m.getitem (-1) (-1) =
      m.getitem ((m.n_rows : Int) - 1) ((m.n_cols : Int) - 1)) ∧
    (∀ r c : Int, r < 0 → 0 ≤ (m.n_rows : Int) + r →
      m.getitem r c = m.getitem ((m.n_rows : Int) + r) c) ∧
    (∀ r c : Int, c < 0 → 0 ≤ (m.n_cols : Int) + c →
      m.getitem r c = m.getitem r ((m.n_cols : Int) + c)) ∧
    (∀ r c : Int, (m.n_rows : Int) + r < 0 → m.getitem r c = none) ∧
    (∀ r c : Int, (m.n_rows : Int) ≤ r → m.getitem r c = none) ∧
    (∀ r c : Int, (m.n_cols : Int) + c < 0 → m.getitem r c = none) ∧
    (∀ r c : Int, (m.n_cols : Int) ≤ c → m.getitem r c = none) := by
  have hwrap : ∀ r c : Int, r < 0 → 0 ≤ (m.n_rows : Int) + r →
      m.getitem r c = m.getitem ((m.n_rows : Int) + r) c := by
    intro r c hneg hin
    simp only [PyMatrix.getitem, PyMatrix.wrapRow, PyMatrix.wrapCol,
      PyMatrix.validRow, PyMatrix.validCol, decide_eq_true_eq]
    split_ifs <;> first | rfl | omega
  have hwrapc : ∀ r c : Int, c < 0 → 0 ≤ (m.n_cols : Int) + c →
      m.getitem r c = m.getitem r ((m.n_cols : Int) + c) := by
    intro r c hneg hin
    simp only [PyMatrix.getitem, PyMatrix.wrapRow, PyMatrix.wrapCol,
      PyMatrix.validRow, PyMatrix.validCol, decide_eq_true_eq]
    split_ifs <;> first | rfl | omega
  refine ⟨?_, hwrap, hwrapc, ?_, ?_, ?_, ?_⟩
  · have h1 := hwrap (-1) (-1) (by omega) (by omega)
    have h2 := hwrapc ((m.n_rows : Int) + -1) (-1) (by omega) (by omega)
    rw [h1, h2, show (m.n_rows : Int) + -1 = (m.n_rows : Int) - 1 from by ring,
      show (m.n_cols : Int) + -1 = (m.n_cols : Int) - 1 from by ring]
  · intro r c hout
    simp only [PyMatrix.getitem, PyMatrix.wrapRow, PyMatrix.wrapCol,
      PyMatrix.validRow, PyMatrix.validCol, decide_eq_true_eq]
    split_ifs <;> first | rfl | omega
  · intro r c hout
    simp only [PyMatrix.getitem, PyMatrix.wrapRow, PyMatrix.wrapCol,
      PyMatrix.validRow, PyMatrix.validCol, decide_eq_true_eq]
    split_ifs <;> first | rfl | omega
  · intro r c hout
    simp only [PyMatrix.getitem, PyMatrix.wrapRow, PyMatrix.wrapCol,
      PyMatrix.validRow, PyMatrix.validCol, decide_eq_true_eq]
    split_ifs <;> first | rfl | omega
  · intro r c hout
    simp only [PyMatrix.getitem, PyMatrix.wrapRow, PyMatrix.wrapCol,
      PyMatrix.validRow, PyMatrix.validCol, decide_eq_true_eq]
    split_ifs <;> first | rfl | omega

/-- Witness for C4 on a concrete 2×2 grid: `get(-1,-1) = get(1,1) = 4`,
`get(-2, 0) = get(0, 0) = 1`, and `get(-3, 0)`, `get(2, 0)`, `get(0, -3)`,
`get(0, 2)` are all range errors. -/
theorem claim_C4_witness :
    (1 ≤ 2 ∧
      (⟨2, 2, [[1, 2], [3, 4]], 0, none, none, 0⟩ : PyMatrix Int).getitem
          (-1) (-1) =
        (⟨2, 2, [[1, 2], [3, 4]], 0, none, none, 0⟩ : PyMatrix Int).getitem
          ((2 : Int) - 1) ((2 : Int) - 1)) ∧
    (⟨2, 2, [[1, 2], [3, 4]], 0, none, none, 0⟩ : PyMatrix Int).getitem
        (-1) (-1) = some 4 ∧
    (⟨2, 2, [[1, 2], [3, 4]], 0, none, none, 0⟩ : PyMatrix Int).getitem
        (-3) 0 = none := by
  refine ⟨⟨by decide, ?_⟩, by decide, by decide⟩
  exact (claim_C4 (⟨2, 2, [[1, 2], [3, 4]], 0, none, none, 0⟩ : PyMatrix Int)
    (by decide) (by decide)).1

/-- C5 claims that assigning any out-of-range cursor coordinate — below 0
or at/above the bound — is rejected and leaves the coordinate unchanged.
The setters only check the upper bound: on a 2×2 matrix, assigning `r = -1`
(or `c = -1`) succeeds and stores the negative coordinate, while assigning
`r = 2` is indeed rejected.  The movement helpers `mleft`/`mup` rely on the
missing lower-bound `ValueError`, so with this state they step outside the
grid while reporting success, contradicting their documented contract. -/
theorem claim_C5_code_bug :
    MatrixPointer.setR ⟨2, 2, 0, 0⟩ (-1) = some ⟨2, 2, -1, 0⟩ ∧
    MatrixPointer.setC ⟨2, 2, 0, 0⟩ (-1) = some ⟨2, 2, 0, -1⟩ ∧
    MatrixPointer.setR ⟨2, 2, 0, 0⟩ 2 = none ∧
    MatrixPointer.setC ⟨2, 2, 0, 0⟩ 2 = none := by
  decide

/-- C6 claims grid-versus-nested-sequence equality compares every row.  The
`return True` sits inside the row loop of `Matrix.__eq__`, so only row 0 is
compared: the 2×2 grid `[[1,2],[3,4]]` compares equal to `[[1,2],[9,9]]`
even though its second row is `[3,4]`. -/
theorem claim_C6_code_bug :
    PyMatrix.eqSeq (⟨2, 2, [[1, 2], [3, 4]], 0, none, none, 0⟩ : PyMatrix Int)
        [[1, 2], [9, 9]] = true ∧
    (⟨2, 2, [[1, 2], [3, 4]], 0, none, none, 0⟩ : PyMatrix Int).getitem 1 0 =
      some 3 ∧
    (⟨2, 2, [[1, 2], [3, 4]], 0, none, none, 0⟩ : PyMatrix Int).getitem 1 1 =
      some 4 := by
  decide

/-- C9 claims assigning the absence marker `None` to an in-range schema
cell succeeds.  The guard `isinstance(value, (TargetSegment, None))` uses
the value `None` instead of the type `type(None)`, so the assignment of
`None` itself raises `TypeError`; assigning a `TargetSegment` still
succeeds. -/
theorem claim_C9_code_bug :
    schemaSetitem
        (⟨1, 1, [[some ⟨none, 0⟩]], some ⟨none, 0⟩, none, none, 0⟩ :
          PyMatrix (Option (TargetSegment Nat))) 0 0 SchemaValue.absent =
      none ∧
    schemaSetitem
        (⟨1, 1, [[some ⟨none, 0⟩]], some ⟨none, 0⟩, none, none, 0⟩ :
          PyMatrix (Option (TargetSegment Nat))) 0 0
        (SchemaValue.seg ⟨some 5, 1⟩) =
      some ⟨1, 1, [[some ⟨some 5, 1⟩]], some ⟨none, 0⟩, none, none, 0⟩ := by
  decide

/-- C10: for every `Levenshtein` object whose `computed` flag is `False`,
reading `distance` and the reconstruction properties `esequence`,
`dsequence`, `psequence` and `dirsequence` returns `None` — no error is
raised and no partial result is exposed before computation completes. -/
theorem claim_C10 {α : Type} (L : LevState α) (h : L.computed = false) :
    L.distance = none ∧ L.esequence = none ∧ L.dsequence = none ∧
      L.psequence = none ∧ L.dirsequence = none := by
  simp [LevState.distance, LevState.esequence, LevState.dsequence,
    LevState.psequence, LevState.dirsequence, h]

/-- A freshly constructed (not yet computed) engine state for
`Levenshtein("a", "b")`: `computed` is `False` and all three 2×2 matrices
still hold their defaults. -/
def freshLev : LevState Nat :=
  { source := [10]
    target := [20]
    insert_cost := 1
    delete_cost := 1
    substitute_cost := 1
    computed := false
    dmatrix := ⟨2, 2, [[0, 0], [0, 0]], 0, none, none, 1⟩
    pmatrix := ⟨2, 2, [[none, none], [none, none]], none, none, none, 1⟩
    ematrix := ⟨2, 2, [[none, none], [none, none]], none, none, none, 1⟩ }

/-- Witness for C10 on the concrete uncomputed engine state. -/
theorem claim_C10_witness :
    freshLev.computed = false ∧ freshLev.distance = none ∧
      freshLev.esequence = none ∧ freshLev.dsequence = none ∧
      freshLev.psequence = none ∧ freshLev.dirsequence = none :=
  ⟨rfl, (claim_C10 freshLev rfl).1, (claim_C10 freshLev rfl).2.1,
    (claim_C10 freshLev rfl).2.2.1, (claim_C10 freshLev rfl).2.2.2.1,
    (claim_C10 freshLev rfl).2.2.2.2⟩

/-- Running `TargetSequence.from_segments` on a list of genuine segments: the
targets are collected in order and the scores summed. -/
lemma fromSegmentsAux_map_some {τ : Type} (segs : List (TargetSegment τ)) :
    ∀ (clean : List (Option τ)) (score : Int),
      fromSegmentsAux clean score (segs.map some) =
        some ⟨clean ++ segs.map (·.target), score + (segs.map (·.score)).sum⟩ := by
  induction segs with
  | nil => intro clean score; simp [fromSegmentsAux]
  | cons s rest ih =>
    intro clean score
    simp only [List.map_cons, fromSegmentsAux, ih, List.sum_cons,
      List.append_assoc, List.singleton_append, Option.some.injEq,
      TargetSequence.mk.injEq]
    exact ⟨trivial, by ring⟩

/-- C8: for every schema with zero alternants (exactly one form, the base,
all of whose cells hold actual segments), `compile` yields a compilation
containing exactly one `TargetSequence`, whose targets are the base's
targets in order and whose score is the sum of the base segments'
scores. -/
theorem claim_C8 {τ : Type} [DecidableEq τ] (segs : List (TargetSegment τ)) :
    compileSchema [segs.map some] =
      some [⟨segs.map (·.target), (segs.map (·.score)).sum⟩] := by
  simp [compileSchema, tsCompile, fromSegments, fromSegmentsAux_map_some,
    tsLoop, setInsert]

/-- The symbol-match check is symmetric in the two sequences: comparing
label `c` of `t` with label `r` of `s` equals comparing label `r` of `s`
with label `c` of `t`. -/
lemma matchLabels_symm {α : Type} [DecidableEq α] (s t : List α) (r c : Nat) :
    matchLabels t s c r = matchLabels s t r c := by
  simp only [matchLabels]
  exact decide_eq_decide.mpr eq_comm

/-- When the insert and delete costs coincide, the value selected by the
interior-cell calculation is invariant under swapping the up and left
neighbours (the backlink and tag swap with them, but the assigned distance
does not); the error case is likewise invariant. -/
lemma calcInterior_dvalue_symm (ic sc : Int) (m : Bool) (r1 c1 r2 c2 : Nat)
    (vup vleft vupleft : Int) :
    (calcInterior ic ic sc m r2 c2 vleft vup vupleft).map (·.dvalue) =
      (calcInterior ic ic sc m r1 c1 vup vleft vupleft).map (·.dvalue) := by
  cases m <;>
    simp only [calcInterior, Bool.false_eq_true, if_false, if_true] <;>
    split_ifs <;> simp <;> omega

/-- Cell-level cost symmetry of the filled distance matrix: with equal
insert and delete costs, cell `(r, c)` for `(s, t)` holds the same value
(or errors in the same way) as cell `(c, r)` for `(t, s)`. -/
lemma dval_symm {α : Type} [DecidableEq α] (ic sc : Int) (s t : List α) :
    ∀ (n r c : Nat), r + c = n →
      dval ic ic sc s t r c = dval ic ic sc t s c r := by
  intro n
  induction n using Nat.strong_induction_on with
  | _ n ih =>
    intro r c hn
    match r, c with
    | 0, 0 => simp [dval]
    | 0, c + 1 =>
      have h := ih c (by omega) 0 c (by omega)
      simp only [dval, h]
    | r + 1, 0 =>
      have h := ih r (by omega) r 0 (by omega)
      simp only [dval, h]
    | r + 1, c + 1 =>
      have hA := ih (r + (c + 1)) (by omega) r (c + 1) rfl
      have hB := ih (r + 1 + c) (by omega) (r + 1) c rfl
      have hC := ih (r + c) (by omega) r c rfl
      simp only [dval]
      rw [← hA, ← hB, ← hC, matchLabels_symm]
      cases dval ic ic sc s t r (c + 1) <;>
        cases dval ic ic sc s t (r + 1) c <;>
          cases dval ic ic sc s t r c <;>
            first
              | rfl
              | exact (calcInterior_dvalue_symm ic sc
                  (matchLabels t s (c + 1) (r + 1)) (r + 1) (c + 1) (c + 1)
                  (r + 1) _ _ _).symm

/-- C7: for every pair of sequences `s` and `t`, whenever the insert cost
equals the delete cost (and for any substitute cost), the computed distance
satisfies `levdist(s, t) = levdist(t, s)` — including the error case, which
occurs for `(s, t)` exactly when it occurs for `(t, s)`. -/
theorem claim_C7 {α : Type} [DecidableEq α] (ic dc sc : Int) (h : ic = dc)
    (s t : List α) :
    levdist ic dc sc s t = levdist ic dc sc t s := by
  subst h
  simp only [levdist]
  exact dval_symm ic sc s t (s.length + t.length) s.length t.length rfl

/-- Witness for C7 at unit costs on the concrete pair `[0, 1]` and
`[1, 0]`. -/
theorem claim_C7_witness :
    (1 : Int) = 1 ∧
      levdist 1 1 1 [0, 1] [1, 0] = levdist 1 1 1 [1, 0] [0, 1] :=
  ⟨rfl, claim_C7 1 1 1 rfl [0, 1] [1, 0]⟩
